import Mathlib

/-!
Verification of the ChainLink ReAct agent (src/llmlink/model/Agent.py).

The Python code is shallowly embedded: strings are Lean `String`s
manipulated through explicit models of the Python string primitives
(`splitlines`, `split`, `strip`, `join`, `startswith`, `str.format`),
tools are records with a fallible callable (`Except` models a raised
exception), and statements that can raise (out-of-range indexing,
format errors) are modelled with `Option`/error outcomes.
-/

set_option maxRecDepth 20000

namespace ChainLink

/-! ### Python string primitives -/

/-- Characters stripped by Python `str.strip()` (the ASCII part of the
Python whitespace set, which covers all inputs appearing in this
development). -/
def pySpace (c : Char) : Bool :=
  c = ' ' || c = '\t' || c = '\n' || c = '\r' || c = '\u000b' || c = '\u000c'

/-- Python `s.strip()`: drop leading and trailing whitespace. -/
def pyStrip (s : String) : String :=
  ⟨((s.data.dropWhile pySpace).reverse.dropWhile pySpace).reverse⟩

/-- Line-break characters recognised by Python `str.splitlines`. -/
def lineBreak (c : Char) : Bool :=
  c = '\n' || c = '\r' || c = '\u000b' || c = '\u000c' || c = '\u001c' ||
  c = '\u001d' || c = '\u001e' || c = '\u0085' || c = ' ' || c = ' '

/-- Worker for `pySplitlines`: `acc` holds the current line, reversed. -/
def slAux : List Char → List Char → List (List Char)
  | acc, [] => if acc.isEmpty then [] else [acc.reverse]
  | acc, '\r' :: '\n' :: rest => acc.reverse :: slAux [] rest
  | acc, c :: rest =>
    if lineBreak c then acc.reverse :: slAux [] rest else slAux (c :: acc) rest

/-- Python `s.splitlines()`: split at line boundaries, no trailing empty
line for a trailing newline. -/
def pySplitlines (s : String) : List String :=
  (slAux [] s.data).map (fun cs => ⟨cs⟩)

/-- Worker for `pySplit`. -/
def pySplitAux (c : Char) (acc : List Char) : List Char → List String
  | [] => [⟨acc.reverse⟩]
  | d :: rest =>
    if d = c then (⟨acc.reverse⟩ : String) :: pySplitAux c [] rest
    else pySplitAux c (d :: acc) rest

/-- Python `s.split(c)` for a one-character separator. -/
def pySplit (s : String) (c : Char) : List String :=
  pySplitAux c [] s.data

/-- Python `c in s` for a character. -/
def pyContains (s : String) (c : Char) : Bool :=
  s.data.any (fun d => d = c)

/-- Python `s.startswith(pat)`. -/
def pyStartsWith (s pat : String) : Bool :=
  pat.data.isPrefixOf s.data

/-- Python `s.endswith(pat)`. -/
def pyEndsWith (s pat : String) : Bool :=
  pat.data.isSuffixOf s.data

/-- Python `sep.join(xs)`. -/
def pyJoin (sep : String) : List String → String
  | [] => ""
  | [x] => x
  | x :: xs => x ++ sep ++ pyJoin sep xs

/-- Python `repr` of a string consisting of plain printable characters
(no quotes, backslashes or control characters), as produced by
`str(list_of_names)`. -/
def pyReprStr (s : String) : String := "'" ++ s ++ "'"

/-- Python `str` of a list of strings, e.g. `['Search', 'Calculator']`. -/
def pyReprList (xs : List String) : String :=
  "[" ++ pyJoin ", " (xs.map pyReprStr) ++ "]"

/-! ### Python `str.format` (the subset exercised by the template
strings: plain `\x7bname\x7d` fields, doubled braces; a missing key or a
malformed field is a raised `KeyError`/`ValueError`, modelled as `none`).
Conversions (`!r`) and format specs (`:>10`) are outside the modelled
subset and are also mapped to `none`. -/

/-- Character-level worker for `pyFormat`.  The `Option (List Char)`
argument is `none` while scanning plain text and `some acc` (field name
so far, reversed) inside a replacement field.  The `Nat` argument is
recursion fuel; every step consumes one unit and at least one character,
so fuel equal to the input length always suffices. -/
def pyFmtAux (m : String → Option String) : Nat → Option (List Char) → List Char → Option (List Char)
  | _, none, [] => some []
  | _, some _, [] => none
  | 0, _, _ :: _ => none
  | fuel + 1, none, c :: rest =>
    if c = '\x7b' then
      match rest with
      | [] => none
      | d :: rest2 =>
        if d = '\x7b' then (fun t => '\x7b' :: t) <$> pyFmtAux m fuel none rest2
        else pyFmtAux m fuel (some []) rest
    else if c = '\x7d' then
      match rest with
      | [] => none
      | d :: rest2 =>
        if d = '\x7d' then (fun t => '\x7d' :: t) <$> pyFmtAux m fuel none rest2
        else none
    else (fun t => c :: t) <$> pyFmtAux m fuel none rest
  | fuel + 1, some acc, c :: rest =>
    if c = '\x7d' then
      match m (String.mk acc.reverse) with
      | some v => (fun t => v.data ++ t) <$> pyFmtAux m fuel none rest
      | none => none
    else if c = '\x7b' || c = ':' || c = '!' then none
    else pyFmtAux m fuel (some (c :: acc)) rest

/-- Python `template.format(...)` with keyword arguments given by `m`. -/
def pyFormat (m : String → Option String) (s : String) : Option String :=
  (fun cs => (⟨cs⟩ : String)) <$> pyFmtAux m s.data.length none s.data

/-! ### The data model: tools and the agent -/

/-- A langchain tool as the agent uses it: a name, a description and a
callable from a string input to a string output.  A raised exception in
the callable is modelled by the `Except.error` branch, carrying the
exception message. -/
structure Tool where
  name : String
  description : String
  invoke : String → Except String String

/-- The agent: the model-calling function, the tool list and the
verbosity flag.  The model stub takes the index of the call (how many
model calls have happened before) and the prompt, so that stateful
model stubs of test scenarios are expressible; a plain functional model
simply ignores the index. -/
structure Agent where
  llm : Nat → String → String
  tools : List Tool
  verbose : Bool

/-- `Agent.tool_descriptions`: double-newline-joined `name: description`
lines. -/
def tool_descriptions (ts : List Tool) : String :=
  pyJoin "\n\n" (ts.map (fun t => t.name ++ ": " ++ t.description))

/-- `Agent.tool_dict` lookup: the Python dict comprehension keyed by
name, where a later tool with the same name overwrites an earlier one. -/
def tool_dict (ts : List Tool) (nm : String) : Option Tool :=
  match ts with
  | [] => none
  | t :: rest =>
    match tool_dict rest nm with
    | some u => some u
    | none => if t.name = nm then some t else none

/-- `Agent.tool_names`: the names in registration order. -/
def tool_names (ts : List Tool) : List String :=
  ts.map (fun t => t.name)

/-- Module constant `PREFIX` of `Agent.py` (renamed here). -/
def PREAMBLE : String :=
  "Answer the following question as best you can. You have access to the following tools:"

/-- Module constant `SUFFIX` of `Agent.py`. -/
def SUFFIX : String := "Begin\n\nQuestion: {question}\n"

/-- Module constant `INSTRUCTIONS` of `Agent.py`. -/
def INSTRUCTIONS : String :=
  "Use the following format:\n\nQuestion: the input question you must answer\nThought: you should always think about what to do next\nAction: the action to take, should be one of {tool_names}\nAction Input: The input to the action\nObservation: the result of the action\n... (this Thought/Action/Action Input/Observation can repeat N times)\nThought: I now know the final answer\nFinal Answer: the final answer to the original input question"

/-- The keyword mapping of the `.format(question=..., tool_names=...)`
call in `create_prompt`. -/
def fmtMap (q tn : String) : String → Option String :=
  fun k => if k = "question" then some q else if k = "tool_names" then some tn else none

/-- `Agent.create_prompt`: concatenate the sections and apply
`str.format`; `none` models a raised format error. -/
def create_prompt (ts : List Tool) (question pre suf instr : String) : Option String :=
  pyFormat (fmtMap question (pyReprList (tool_names ts)))
    (pre ++ "\n\n" ++ tool_descriptions ts ++ "\n\n" ++ instr ++ "\n\n" ++ suf)

/-- `Agent.run_tool`: look the tool up by name; a found tool is invoked
and a raised exception is converted to an error string; an unknown name
yields a not-found string.  The function itself never fails. -/
def run_tool (ts : List Tool) (tool_name tool_input : String) : String :=
  match tool_dict ts tool_name with
  | some t =>
    match t.invoke tool_input with
    | .ok r => r
    | .error e => "Tool encountered an error: " ++ e
  | none => "No tool with the name " ++ tool_name ++ " found"

/-! ### The output parser -/

/-- The structured results of `Agent.parse_output`: the two dict shapes
and the plain-string soft-failure shape. -/
inductive ParseResult where
  | tool (thought tool_name tool_input : String)
  | answer (thought answer : String)
  | unparsed (text : String)
deriving DecidableEq, Repr

/-- The truncated warning string appended on a soft parse failure. -/
def warnText : String := "Warning: No parsable action detected. Be sure to "

/-- The forward scan over the lines after `Action Input` that appends
lines to the tool input until a line starting with `Observation:`. -/
def accumInput (ti : String) : List String → String
  | [] => ti
  | l :: rest =>
    if pyStartsWith l "Observation:" then ti else accumInput (ti ++ "\n" ++ l) rest

/-- The trimmed pre-colon token of a line: `line.split(':')[0].strip()`. -/
def tokOf (l : String) : String := pyStrip ((pySplit l ':').headI)

/-- The line scan of `Agent.parse_output`.  `prev` holds the already
scanned lines (`lines[:idx]`).  The first component is the parse result,
`none` modelling a raised `IndexError`; the second component records
whether the `Possible problem parsing action input` warning was
printed. -/
def parseLines (output : String) : List String → List String → Option ParseResult × Bool
  | _, [] => (some (.unparsed (output ++ "\n" ++ warnText)), false)
  | prev, line :: rest =>
    if pyContains line ':' then
      if tokOf line = "Action" then
        match rest with
        | [] => (none, false)
        | next :: rest2 =>
          let warn := tokOf next != "Action Input"
          let parts := pySplit next ':'
          if 2 ≤ parts.length then
            (some (.tool (pyJoin "\n" prev)
                (pyStrip (pyJoin ":" (pySplit line ':').tail))
                (accumInput (pyStrip (parts.getD 1 "")) rest2)), warn)
          else (none, warn)
      else if tokOf line = "Final Answer" then
        (some (.answer (pyJoin "\n" prev) (pyStrip ((pySplit line ':').getD 1 ""))), false)
      else parseLines output (prev ++ [line]) rest
    else parseLines output (prev ++ [line]) rest

/-- `Agent.parse_output`. -/
def parse_output (output : String) : Option ParseResult × Bool :=
  parseLines output [] (pySplitlines output)

/-! ### The run loop -/

/-- How a call of `Agent.run` ends: a normal return carrying the final
answer and the full prompt text, a raised exception, or exhaustion of
the loop fuel (the source loop is unbounded; fuel is the embedding of
running it for a bounded number of iterations). -/
inductive RunOutcome where
  | ok (response full_text : String)
  | err
  | fuelOut
deriving DecidableEq, Repr

/-- The answer text of a normal return. -/
def RunOutcome.respOf : RunOutcome → Option String
  | .ok r _ => some r
  | _ => none

/-- The full text of a normal return. -/
def RunOutcome.textOf : RunOutcome → Option String
  | .ok _ t => some t
  | _ => none

/-- The state returned by the embedded `Agent.run`: the outcome, the
number of model invocations, the number of tool invocations, and the
agent bindings as they stand at the end of the call. -/
structure RunRes where
  outcome : RunOutcome
  modelCalls : Nat
  toolCalls : Nat
  agent : Agent

/-- The `while True` loop of `Agent.run`.  `ci` counts model calls made
so far, `tc` counts tool invocations made so far.  The agent is threaded
through unchanged, mirroring that no statement of the loop assigns to
`self`. -/
def runLoop (a : Agent) : String → Nat → Nat → Nat → RunRes
  | _, ci, tc, 0 => ⟨.fuelOut, ci, tc, a⟩
  | prompt, ci, tc, fuel + 1 =>
    let response := a.llm ci prompt
    match (parse_output response).1 with
    | none => ⟨.err, ci + 1, tc, a⟩
    | some (.unparsed _) => ⟨.err, ci + 1, tc, a⟩
    | some (.tool thought tl inp) =>
      let tr0 := run_tool a.tools tl inp
      let tr := if tr0 = "" then "Tool returned no results" else tr0
      runLoop a
        (prompt ++ thought ++ "\nAction: " ++ tl ++ "\nAction Input: " ++ inp ++
          "\nObservation: " ++ tr ++ "\n")
        (ci + 1) (tc + if (tool_dict a.tools tl).isSome then 1 else 0) fuel
    | some (.answer thought ans) =>
      ⟨.ok ans (prompt ++ thought ++ "\nFinal Answer: " ++ ans), ci + 1, tc, a⟩

/-- `Agent.run`: build the initial prompt and iterate. -/
def run (a : Agent) (question : String) (fuel : Nat) : RunRes :=
  match create_prompt a.tools question PREAMBLE SUFFIX INSTRUCTIONS with
  | some p => runLoop a p 0 0 fuel
  | none => ⟨.err, 0, 0, a⟩

/-! ### Construction-time validation

The dynamic typing of the constructor arguments is embedded with tagged
values: a `tools` argument is a single tool, a Python list whose
elements may or may not be tools, or a value of some other type (its
type name carried for the error message); a `verbose` argument is a
bool or a value of some other type. -/

/-- An element of a Python list passed as the `tools` argument. -/
inductive ToolElem where
  | tool (t : Tool)
  | nonTool (typeName : String)

/-- The element as a tool, when it is one. -/
def ToolElem.asTool : ToolElem → Option Tool
  | .tool t => some t
  | .nonTool _ => none

/-- The `tools` constructor argument. -/
inductive ToolsArg where
  | one (t : Tool)
  | list (vs : List ToolElem)
  | other (typeName : String)

/-- The `verbose` constructor argument. -/
inductive VerboseArg where
  | bool (b : Bool)
  | other (typeName : String)

/-- The `tools` property setter: a list must contain only tools, a
single tool is wrapped into a list, anything else is a `TypeError`
(modelled as `Except.error` with the message). -/
def set_tools : ToolsArg → Except String (List Tool)
  | .list vs =>
    if vs.all (fun v => v.asTool.isSome) then .ok (vs.filterMap ToolElem.asTool)
    else .error "All tools must be langchain Tool objects"
  | .one t => .ok [t]
  | .other tn => .error ("tools must be langchain Tool or list of Tools, got " ++ tn)

/-- The `verbose` property setter: anything but a bool is a `TypeError`. -/
def set_verbose : VerboseArg → Except String Bool
  | .bool b => .ok b
  | .other tn => .error ("verbose must be bool, got " ++ tn)

/-- `Agent.__init__`: assign `llm`, then the `tools` setter, then the
`verbose` setter; the first raised `TypeError` aborts construction. -/
def Agent.init (llm : Nat → String → String) (ta : ToolsArg) (va : VerboseArg) :
    Except String Agent :=
  match set_tools ta with
  | .error e => .error e
  | .ok ts =>
    match set_verbose va with
    | .error e => .error e
    | .ok v => .ok ⟨llm, ts, v⟩

/-- A `tools` argument is valid when it is a tool or a list of tools. -/
def validToolsArg : ToolsArg → Bool
  | .one _ => true
  | .list vs => vs.all (fun v => v.asTool.isSome)
  | .other _ => false

/-- A `verbose` argument is valid when it is a bool. -/
def validVerboseArg : VerboseArg → Bool
  | .bool _ => true
  | .other _ => false

/-- Whether construction succeeded. -/
def isOkE (x : Except String Agent) : Bool :=
  match x with
  | .ok _ => true
  | .error _ => false

/-! ### Spec-side definitions and concrete test fixtures -/

/-- Modelled from the spec: the text after the first colon on a line,
trimmed (the value the spec prescribes for the tool input and the final
answer). -/
def spec_after_first_colon (l : String) : String :=
  pyStrip (pyJoin ":" (pySplit l ':').tail)

/-- Whether a string is free of format braces. -/
def braceFree (s : String) : Bool :=
  s.data.all (fun c => !(c = '\x7b' || c = '\x7d'))

/-- Propositional form of brace-freedom for character lists. -/
abbrev bfL (cs : List Char) : Prop :=
  ∀ c ∈ cs, c ≠ '\x7b' ∧ c ≠ '\x7d'

/-- A well-formed replacement-field name: no braces, no conversion or
format-spec separators. -/
abbrev cleanF (cs : List Char) : Prop :=
  ∀ c ∈ cs, c ≠ '\x7b' ∧ c ≠ '\x7d' ∧ c ≠ ':' ∧ c ≠ '!'

/-- Substring test (used to state containment facts about prompts). -/
def containsStr (hay needle : String) : Bool :=
  decide (needle.data <:+: hay.data)

/-- The part of `INSTRUCTIONS` before its `tool_names` field. -/
def iHead : String :=
  "Use the following format:\n\nQuestion: the input question you must answer\nThought: you should always think about what to do next\nAction: the action to take, should be one of "

/-- The part of `INSTRUCTIONS` after its `tool_names` field. -/
def iTail : String :=
  "\nAction Input: The input to the action\nObservation: the result of the action\n... (this Thought/Action/Action Input/Observation can repeat N times)\nThought: I now know the final answer\nFinal Answer: the final answer to the original input question"

/-- The part of `SUFFIX` before its `question` field. -/
def sHead : String := "Begin\n\nQuestion: "

/-- A search tool for the end-to-end scenario. -/
def searchTool : Tool :=
  ⟨"Search", "useful to look facts up", fun _ => .ok "Paris is the capital of France"⟩

/-- A tool whose callable always raises. -/
def failTool : Tool := ⟨"Fail", "always raises", fun _ => .error "boom"⟩

/-- A minimal tool for the prompt counterexample. -/
def cTool : Tool := ⟨"t", "d", fun _ => .ok ""⟩

/-- The model stub of the end-to-end scenario: the first call yields a
tool call, every later call yields a final answer. -/
def stubLLM : Nat → String → String := fun i _ =>
  if i = 0 then "Thought: I should search\nAction: Search\nAction Input: capital of France"
  else "Thought: I now know the final answer\nFinal Answer: Paris"

/-- The agent of the end-to-end scenario. -/
def stubAgent : Agent := ⟨stubLLM, [searchTool], false⟩

/-- The question of the end-to-end scenario. -/
def stubQuestion : String := "What is the capital of France?"

/-- An agent whose model always produces unparsable output. -/
def confusedAgent : Agent := ⟨fun _ _ => "no colons here", [], false⟩

/-! ### Helper lemmas about the string primitives -/

theorem strEmptyAppend (s : String) : "" ++ s = s := by
  cases s with
  | mk data => apply String.ext; simp [String.data_append]

theorem strAppendEmpty (s : String) : s ++ "" = s := by
  cases s with
  | mk data => apply String.ext; simp [String.data_append]

theorem pyJoin_glue (sep a b : String) (xs : List String) :
    pyJoin sep ((a ++ sep ++ b) :: xs) = a ++ sep ++ pyJoin sep (b :: xs) := by
  cases xs with
  | nil => simp [pyJoin]
  | cons c xs => simp [pyJoin, String.append_assoc]

theorem accumInput_join : ∀ (rest : List String) (ti : String),
    accumInput ti rest =
      pyJoin "\n" (ti :: rest.takeWhile (fun l => !(pyStartsWith l "Observation:")))
  | [], ti => by simp [accumInput, pyJoin]
  | l :: rest, ti => by
    by_cases hl : pyStartsWith l "Observation:" = true
    · simp [accumInput, hl, pyJoin]
    · have hb : pyStartsWith l "Observation:" = false := by
        revert hl; cases pyStartsWith l "Observation:" <;> simp
      rw [show accumInput ti (l :: rest) = accumInput (ti ++ "\n" ++ l) rest by
            simp [accumInput, hb]]
      rw [accumInput_join rest (ti ++ "\n" ++ l)]
      rw [show (l :: rest).takeWhile (fun x => !(pyStartsWith x "Observation:")) =
            l :: rest.takeWhile (fun x => !(pyStartsWith x "Observation:")) by
            simp [List.takeWhile_cons, hb]]
      exact pyJoin_glue "\n" ti l _

theorem pySplitAux_length_pos (c : Char) :
    ∀ (cs : List Char) (acc : List Char), 1 ≤ (pySplitAux c acc cs).length
  | [], acc => by simp [pySplitAux]
  | d :: rest, acc => by
    by_cases hd : d = c
    · simp [pySplitAux, hd]
    · simpa [pySplitAux, hd] using pySplitAux_length_pos c rest (d :: acc)

theorem pySplitAux_length_two (c : Char) :
    ∀ (cs : List Char) (acc : List Char), c ∈ cs → 2 ≤ (pySplitAux c acc cs).length
  | [], _, h => by simp at h
  | d :: rest, acc, h => by
    by_cases hd : d = c
    · have h1 := pySplitAux_length_pos c rest []
      rw [show pySplitAux c acc (d :: rest) =
            (⟨acc.reverse⟩ : String) :: pySplitAux c [] rest by simp [pySplitAux, hd]]
      simp only [List.length_cons]
      omega
    · have hr : c ∈ rest := by
        rcases List.mem_cons.mp h with h1 | h1
        · exact absurd h1.symm hd
        · exact h1
      rw [show pySplitAux c acc (d :: rest) = pySplitAux c (d :: acc) rest by
            simp [pySplitAux, hd]]
      exact pySplitAux_length_two c rest (d :: acc) hr

theorem pySplit_length_two {s : String} (h : pyContains s ':' = true) :
    2 ≤ (pySplit s ':').length := by
  have h' : ':' ∈ s.data := by
    unfold pyContains at h
    simp only [List.any_eq_true, decide_eq_true_eq] at h
    obtain ⟨x, hx, hxe⟩ := h
    rwa [hxe] at hx
  exact pySplitAux_length_two ':' s.data [] h'

theorem pySplitAux_length_one (c : Char) :
    ∀ (cs : List Char) (acc : List Char), (∀ x ∈ cs, x ≠ c) →
      (pySplitAux c acc cs).length = 1
  | [], _, _ => by simp [pySplitAux]
  | d :: rest, acc, h => by
    have hd : ¬ d = c := h d (by simp)
    rw [show pySplitAux c acc (d :: rest) = pySplitAux c (d :: acc) rest by
          simp [pySplitAux, hd]]
    exact pySplitAux_length_one c rest (d :: acc) (fun x hx => h x (by simp [hx]))

theorem pySplit_length_one {s : String} (h : pyContains s ':' = false) :
    (pySplit s ':').length = 1 := by
  have h' : ∀ x ∈ s.data, x ≠ ':' := by
    unfold pyContains at h
    rw [List.any_eq_false] at h
    intro x hx
    simpa using h x hx
  exact pySplitAux_length_one ':' s.data [] h'

/-! ### Helper lemmas about the parser -/

/-- The scan skips every line that is not a recognized marker line,
moving it into the accumulated thought lines. -/
theorem parseLines_skip (output : String) :
    ∀ (pre prev rest : List String),
      (∀ l ∈ pre, pyContains l ':' = true → tokOf l ≠ "Action" ∧ tokOf l ≠ "Final Answer") →
      parseLines output prev (pre ++ rest) = parseLines output (prev ++ pre) rest
  | [], prev, rest, _ => by simp
  | l :: pre, prev, rest, h => by
    have hl := h l (by simp)
    have ih := parseLines_skip output pre (prev ++ [l]) rest
      (fun x hx => h x (by simp [hx]))
    by_cases hc : pyContains l ':' = true
    · obtain ⟨h1, h2⟩ := hl hc
      rw [List.cons_append]
      rw [show parseLines output prev (l :: (pre ++ rest)) =
            parseLines output (prev ++ [l]) (pre ++ rest) by
            simp [parseLines, hc, h1, h2]]
      rw [ih]
      simp
    · have hb : pyContains l ':' = false := by
        revert hc; cases pyContains l ':' <;> simp
      rw [List.cons_append]
      rw [show parseLines output prev (l :: (pre ++ rest)) =
            parseLines output (prev ++ [l]) (pre ++ rest) by
            simp [parseLines, hb]]
      rw [ih]
      simp

/-- The full behaviour of `parse_output` when the first marker line is an
`Action` line whose following line contains a colon. -/
theorem parse_action_full (output : String) (pre : List String) (aLine nLine : String)
    (rest2 : List String)
    (hsplit : pySplitlines output = pre ++ aLine :: nLine :: rest2)
    (hpre : ∀ l ∈ pre, pyContains l ':' = true → tokOf l ≠ "Action" ∧ tokOf l ≠ "Final Answer")
    (hac : pyContains aLine ':' = true)
    (hat : tokOf aLine = "Action")
    (hnc : pyContains nLine ':' = true) :
    parse_output output =
      (some (.tool (pyJoin "\n" pre)
          (pyStrip (pyJoin ":" (pySplit aLine ':').tail))
          (pyJoin "\n" (pyStrip ((pySplit nLine ':').getD 1 "") ::
            rest2.takeWhile (fun l => !(pyStartsWith l "Observation:"))))),
        tokOf nLine != "Action Input") := by
  have h2 : 2 ≤ (pySplit nLine ':').length := pySplit_length_two hnc
  unfold parse_output
  rw [hsplit, parseLines_skip output pre [] (aLine :: nLine :: rest2) hpre, List.nil_append]
  simp [parseLines, hac, hat, h2, accumInput_join]

/-! ### Claim C1 -/

/-- C1, counterexample: on an Action-Input line with two colons the code
takes the text between the first and second colons (`split(':')[1]`),
not everything after the first colon as the claim states. -/
theorem c1_between_colons_counterexample :
    (parse_output "Action: Search\nAction Input: a:b").1 = some (.tool "" "Search" "a") ∧
    spec_after_first_colon "Action Input: a:b" = "a:b" ∧
    ("a" : String) ≠ "a:b" := by decide

/-- C1 (amended): when the first marker line is an `Action` line and the
immediately following line exists and contains a colon, `parse_output`
returns a tool-call record whose tool name is everything after the first
colon of the Action line trimmed, whose tool input starts from the text
between the first and second colons of the following line trimmed with
every subsequent line appended newline-joined until a line beginning
with `Observation:` or the end of lines, and whose thought is the
newline-join of the lines before the Action line. -/
theorem c1_action_tool_call (output : String) (pre : List String) (aLine nLine : String)
    (rest2 : List String)
    (hsplit : pySplitlines output = pre ++ aLine :: nLine :: rest2)
    (hpre : ∀ l ∈ pre, pyContains l ':' = true → tokOf l ≠ "Action" ∧ tokOf l ≠ "Final Answer")
    (hac : pyContains aLine ':' = true)
    (hat : tokOf aLine = "Action")
    (hnc : pyContains nLine ':' = true) :
    (parse_output output).1 =
      some (.tool (pyJoin "\n" pre)
        (pyStrip (pyJoin ":" (pySplit aLine ':').tail))
        (pyJoin "\n" (pyStrip ((pySplit nLine ':').getD 1 "") ::
          rest2.takeWhile (fun l => !(pyStartsWith l "Observation:"))))) := by
  rw [parse_action_full output pre aLine nLine rest2 hsplit hpre hac hat hnc]

/-- C1 witness: the spec round-trip example evaluated through the amended
theorem. -/
theorem c1_action_tool_call_witness :
    (parse_output
      "Thought: I should search\nAction: Search\nAction Input: capital of France\nObservation: ignored").1 =
      some (.tool "Thought: I should search" "Search" "capital of France") := by
  have h := c1_action_tool_call
    "Thought: I should search\nAction: Search\nAction Input: capital of France\nObservation: ignored"
    ["Thought: I should search"] "Action: Search" "Action Input: capital of France"
    ["Observation: ignored"] (by decide) (by decide) (by decide) (by decide) (by decide)
  rw [h]
  decide

/-! ### Claim C2 -/

/-- C2, counterexample: a final answer containing a colon is truncated at
the second colon (`split(':')[1]`), not taken whole as the claim
states. -/
theorem c2_between_colons_counterexample :
    (parse_output "Thought: done\nFinal Answer: 3:4").1 = some (.answer "Thought: done" "3") ∧
    spec_after_first_colon "Final Answer: 3:4" = "3:4" ∧
    ("3" : String) ≠ "3:4" := by decide

/-- C2 (amended): when the first marker line is a `Final Answer` line,
`parse_output` returns a final-answer record whose answer is the text
between the first and second colons of that line, trimmed, and whose
thought is the newline-join of the lines before that line. -/
theorem c2_final_answer (output : String) (pre : List String) (fLine : String)
    (rest : List String)
    (hsplit : pySplitlines output = pre ++ fLine :: rest)
    (hpre : ∀ l ∈ pre, pyContains l ':' = true → tokOf l ≠ "Action" ∧ tokOf l ≠ "Final Answer")
    (hfc : pyContains fLine ':' = true)
    (hft : tokOf fLine = "Final Answer") :
    parse_output output =
      (some (.answer (pyJoin "\n" pre) (pyStrip ((pySplit fLine ':').getD 1 ""))), false) := by
  have hna : tokOf fLine ≠ "Action" := by rw [hft]; decide
  unfold parse_output
  rw [hsplit, parseLines_skip output pre [] (fLine :: rest) hpre, List.nil_append]
  simp [parseLines, hfc, hft, hna]

/-- C2 witness: the spec round-trip example evaluated through the amended
theorem. -/
theorem c2_final_answer_witness :
    parse_output "Thought: done\nFinal Answer: Paris" =
      (some (.answer "Thought: done" "Paris"), false) := by
  have h := c2_final_answer "Thought: done\nFinal Answer: Paris" ["Thought: done"]
    "Final Answer: Paris" [] (by decide) (by decide) (by decide) (by decide)
  rw [h]
  decide

/-! ### Claim C5 -/

/-- C5, counterexample: with an Action line followed by a colon-free
line, `parse_output` prints the warning and then raises an `IndexError`
at `split(':')[1]` (modelled as the `none` result), contradicting the
claim that the missing expected line never makes it fail. -/
theorem c5_raises_counterexample :
    parse_output "Action: S\nfoo" = (none, true) := by decide

/-- C5 (amended): after an `Action` line, when the following line exists
and contains a colon but its trimmed pre-colon token is not
`Action Input`, the warning is emitted and parsing still proceeds,
taking the text between the first and second colons of that line,
trimmed, as the initial tool input; when the following line contains no
colon, or the Action line is the last line, `parse_output` raises an
index error instead (the `none` result). -/
theorem c5_action_input_handling :
    (∀ (output : String) (pre : List String) (aLine nLine : String) (rest2 : List String),
      pySplitlines output = pre ++ aLine :: nLine :: rest2 →
      (∀ l ∈ pre, pyContains l ':' = true → tokOf l ≠ "Action" ∧ tokOf l ≠ "Final Answer") →
      pyContains aLine ':' = true → tokOf aLine = "Action" →
      pyContains nLine ':' = true → tokOf nLine ≠ "Action Input" →
      parse_output output =
        (some (.tool (pyJoin "\n" pre)
            (pyStrip (pyJoin ":" (pySplit aLine ':').tail))
            (pyJoin "\n" (pyStrip ((pySplit nLine ':').getD 1 "") ::
              rest2.takeWhile (fun l => !(pyStartsWith l "Observation:"))))), true)) ∧
    (∀ (output : String) (pre : List String) (aLine nLine : String) (rest2 : List String),
      pySplitlines output = pre ++ aLine :: nLine :: rest2 →
      (∀ l ∈ pre, pyContains l ':' = true → tokOf l ≠ "Action" ∧ tokOf l ≠ "Final Answer") →
      pyContains aLine ':' = true → tokOf aLine = "Action" →
      pyContains nLine ':' = false →
      parse_output output = (none, tokOf nLine != "Action Input")) ∧
    (∀ (output : String) (pre : List String) (aLine : String),
      pySplitlines output = pre ++ [aLine] →
      (∀ l ∈ pre, pyContains l ':' = true → tokOf l ≠ "Action" ∧ tokOf l ≠ "Final Answer") →
      pyContains aLine ':' = true → tokOf aLine = "Action" →
      parse_output output = (none, false)) := by
  refine ⟨?_, ?_, ?_⟩
  · intro output pre aLine nLine rest2 hsplit hpre hac hat hnc hni
    rw [parse_action_full output pre aLine nLine rest2 hsplit hpre hac hat hnc]
    rw [bne_iff_ne.mpr hni]
  · intro output pre aLine nLine rest2 hsplit hpre hac hat hnc
    have h1 : (pySplit nLine ':').length = 1 := pySplit_length_one hnc
    have hlt : ¬ (2 ≤ (pySplit nLine ':').length) := by omega
    unfold parse_output
    rw [hsplit, parseLines_skip output pre [] (aLine :: nLine :: rest2) hpre, List.nil_append]
    simp [parseLines, hac, hat, hlt]
  · intro output pre aLine hsplit hpre hac hat
    unfold parse_output
    rw [hsplit, parseLines_skip output pre [] [aLine] hpre, List.nil_append]
    simp [parseLines, hac, hat]

/-- C5 witness: one instance of each conjunct of the amended claim. -/
theorem c5_action_input_handling_witness :
    parse_output "Action: S\nInput: x" = (some (.tool "" "S" "x"), true) ∧
    parse_output "Action: T\nbar" = (none, true) ∧
    parse_output "Action: U" = (none, false) := by
  refine ⟨?_, ?_, ?_⟩
  · have h := c5_action_input_handling.1 "Action: S\nInput: x" [] "Action: S" "Input: x" []
      (by decide) (by decide) (by decide) (by decide) (by decide) (by decide)
    rw [h]
    decide
  · have h := c5_action_input_handling.2.1 "Action: T\nbar" [] "Action: T" "bar" []
      (by decide) (by decide) (by decide) (by decide) (by decide)
    rw [h]
    decide
  · exact c5_action_input_handling.2.2 "Action: U" [] "Action: U"
      (by decide) (by decide) (by decide) (by decide)

/-! ### Claim C7 -/

/-- C7: when no line has a trimmed pre-colon token equal to `Action` or
`Final Answer`, `parse_output` returns the original text with the
warning suffix appended, as the plain unparsed shape (and no warning is
printed). -/
theorem c7_soft_parse_failure (output : String)
    (h : ∀ l ∈ pySplitlines output, tokOf l ≠ "Action" ∧ tokOf l ≠ "Final Answer") :
    parse_output output =
      (some (.unparsed
          (output ++ "\n" ++ "Warning: No parsable action detected. Be sure to ")),
        false) := by
  unfold parse_output
  rw [show pySplitlines output = pySplitlines output ++ [] by simp]
  rw [parseLines_skip output (pySplitlines output) [] [] (fun l hl _ => h l hl)]
  simp [parseLines, warnText]

/-- C7 witness: the spec round-trip example. -/
theorem c7_soft_parse_failure_witness :
    parse_output "no colons here" =
      (some (.unparsed
          ("no colons here" ++ "\n" ++ "Warning: No parsable action detected. Be sure to ")),
        false) :=
  c7_soft_parse_failure "no colons here" (by decide)

/-! ### Claim C4 -/

/-- C4: when the model output parses to the soft-parse-failure shape
(the unparsed string), the loop body fails at the `action` subscript
read: the run ends in the raised state after exactly that one further
model call, it does not return normally and does not continue the
loop. -/
theorem c4_unparsed_crashes (a : Agent) (p : String) (ci tc fuel : Nat) (s : String)
    (h : (parse_output (a.llm ci p)).1 = some (.unparsed s)) :
    runLoop a p ci tc (fuel + 1) = ⟨.err, ci + 1, tc, a⟩ := by
  simp [runLoop, h]

/-- C4 witness: an agent whose model always answers `no colons here`. -/
theorem c4_unparsed_crashes_witness :
    runLoop confusedAgent "P" 0 0 3 = ⟨.err, 1, 0, confusedAgent⟩ :=
  c4_unparsed_crashes confusedAgent "P" 0 0 2
    ("no colons here" ++ "\n" ++ warnText) (by decide)

/-! ### Claim C6 -/

/-- C6: `run_tool` is total (never raises); an unknown name yields the
not-found string containing the name, and a registered tool whose
callable raises yields the error string containing the exception
message. -/
theorem c6_run_tool_total (ts : List Tool) (nm inp : String) :
    (tool_dict ts nm = none →
      run_tool ts nm inp = "No tool with the name " ++ nm ++ " found" ∧
      ∃ x y, run_tool ts nm inp = x ++ nm ++ y) ∧
    (∀ t e, tool_dict ts nm = some t → t.invoke inp = .error e →
      run_tool ts nm inp = "Tool encountered an error: " ++ e ∧
      ∃ x y, run_tool ts nm inp = x ++ e ++ y) := by
  constructor
  · intro h
    refine ⟨by simp [run_tool, h], "No tool with the name ", " found", by simp [run_tool, h]⟩
  · intro t e ht he
    refine ⟨by simp [run_tool, ht, he], "Tool encountered an error: ", "", ?_⟩
    rw [strAppendEmpty]
    simp [run_tool, ht, he]

/-- C6 witness: an unknown tool name and a raising tool. -/
theorem c6_run_tool_total_witness :
    run_tool [failTool] "nope" "x" = "No tool with the name " ++ "nope" ++ " found" ∧
    run_tool [failTool] "Fail" "x" = "Tool encountered an error: " ++ "boom" :=
  ⟨((c6_run_tool_total [failTool] "nope" "x").1 rfl).1,
   ((c6_run_tool_total [failTool] "Fail" "x").2 failTool "boom" rfl rfl).1⟩

/-! ### Claim C9 -/

/-- C9: construction fails with a type error when the verbosity argument
is not a bool, fails with a type error when the tools argument is
neither a tool nor a list of tools, and succeeds on every valid
argument pair. -/
theorem c9_construction (llm : Nat → String → String) (ta : ToolsArg) (va : VerboseArg) :
    (validVerboseArg va = false → isOkE (Agent.init llm ta va) = false) ∧
    (validToolsArg ta = false → isOkE (Agent.init llm ta va) = false) ∧
    (validToolsArg ta = true → validVerboseArg va = true →
      isOkE (Agent.init llm ta va) = true) := by
  refine ⟨?_, ?_, ?_⟩
  · intro hv
    cases va with
    | bool b => simp [validVerboseArg] at hv
    | other tn =>
      cases ta with
      | one t => simp [Agent.init, set_tools, set_verbose, isOkE]
      | other s => simp [Agent.init, set_tools, isOkE]
      | list vs =>
        by_cases hl : vs.all (fun v => v.asTool.isSome) = true
        · simp [Agent.init, set_tools, hl, set_verbose, isOkE]
        · simp only [Bool.not_eq_true] at hl
          simp [Agent.init, set_tools, hl, isOkE]
  · intro ht
    cases ta with
    | one t => simp [validToolsArg] at ht
    | other s => simp [Agent.init, set_tools, isOkE]
    | list vs =>
      have hl : vs.all (fun v => v.asTool.isSome) = false := by
        simpa [validToolsArg] using ht
      simp [Agent.init, set_tools, hl, isOkE]
  · intro ht hv
    cases va with
    | other tn => simp [validVerboseArg] at hv
    | bool b =>
      cases ta with
      | one t => simp [Agent.init, set_tools, set_verbose, isOkE]
      | other s => simp [validToolsArg] at ht
      | list vs =>
        have hl : vs.all (fun v => v.asTool.isSome) = true := by
          simpa [validToolsArg] using ht
        simp [Agent.init, set_tools, hl, set_verbose, isOkE]

/-- C9 witness: a non-bool verbosity, a non-tool tools argument, and a
valid pair. -/
theorem c9_construction_witness :
    isOkE (Agent.init stubLLM (.one cTool) (.other "str")) = false ∧
    isOkE (Agent.init stubLLM (.other "int") (.bool true)) = false ∧
    isOkE (Agent.init stubLLM (.one cTool) (.bool false)) = true :=
  ⟨(c9_construction stubLLM (.one cTool) (.other "str")).1 rfl,
   (c9_construction stubLLM (.other "int") (.bool true)).2.1 rfl,
   (c9_construction stubLLM (.one cTool) (.bool false)).2.2 rfl rfl⟩

/-! ### Claim C10 -/

/-- The loop threads the agent bindings through unchanged. -/
theorem runLoop_agent (a : Agent) :
    ∀ (fuel : Nat) (p : String) (ci tc : Nat), (runLoop a p ci tc fuel).agent = a
  | 0, _, _, _ => rfl
  | fuel + 1, p, ci, tc => by
    simp only [runLoop]
    cases hres : (parse_output (a.llm ci p)).1 with
    | none => rfl
    | some pr =>
      cases pr with
      | tool th tl inp => exact runLoop_agent a fuel _ _ _
      | answer th ans => rfl
      | unparsed s => rfl

/-- C10: `run` never mutates the agent bindings: at every point of the
loop and after the call the model function, tool list and verbosity flag
equal their starting values, and `tool_dict` and `tool_names` observed
before and after `run` are identical. -/
theorem c10_run_no_mutation (a : Agent) (p : String) (ci tc fuel : Nat) (q : String) :
    (runLoop a p ci tc fuel).agent = a ∧
    (run a q fuel).agent = a ∧
    (run a q fuel).agent.llm = a.llm ∧
    (run a q fuel).agent.tools = a.tools ∧
    (run a q fuel).agent.verbose = a.verbose ∧
    tool_dict ((run a q fuel).agent.tools) = tool_dict a.tools ∧
    tool_names ((run a q fuel).agent.tools) = tool_names a.tools := by
  have hl := runLoop_agent a fuel p ci tc
  have hr : (run a q fuel).agent = a := by
    unfold run
    cases hc : create_prompt a.tools q PREAMBLE SUFFIX INSTRUCTIONS with
    | some pp => exact runLoop_agent a fuel pp 0 0
    | none => rfl
  exact ⟨hl, hr, by rw [hr], by rw [hr], by rw [hr], by rw [hr], by rw [hr]⟩

/-! ### Claim C3 -/

/-- C3: a parsed tool call executes the tool, substitutes the
placeholder exactly when the tool output is empty, appends the
Action/Action Input/Observation pattern to the prompt and continues; a
parsed final answer appends the Final Answer pattern and returns the
answer with the full text; and in the two-step stub scenario `run`
returns the pair with the full text ending in the final answer, after
exactly two model calls and one tool call. -/
theorem c3_run_loop_behaviour :
    (∀ (a : Agent) (p : String) (ci tc fuel : Nat) (th tl inp : String),
      (parse_output (a.llm ci p)).1 = some (.tool th tl inp) →
      runLoop a p ci tc (fuel + 1) =
        runLoop a
          (p ++ th ++ "\nAction: " ++ tl ++ "\nAction Input: " ++ inp ++ "\nObservation: " ++
            (if run_tool a.tools tl inp = "" then "Tool returned no results"
             else run_tool a.tools tl inp) ++ "\n")
          (ci + 1) (tc + if (tool_dict a.tools tl).isSome then 1 else 0) fuel) ∧
    (∀ (a : Agent) (p : String) (ci tc fuel : Nat) (th ans : String),
      (parse_output (a.llm ci p)).1 = some (.answer th ans) →
      runLoop a p ci tc (fuel + 1) =
        ⟨.ok ans (p ++ th ++ "\nFinal Answer: " ++ ans), ci + 1, tc, a⟩) ∧
    ((run stubAgent stubQuestion 5).outcome.respOf = some "Paris" ∧
     Option.map (fun t => pyEndsWith t "Final Answer: Paris")
       (run stubAgent stubQuestion 5).outcome.textOf = some true ∧
     (run stubAgent stubQuestion 5).modelCalls = 2 ∧
     (run stubAgent stubQuestion 5).toolCalls = 1) := by
  refine ⟨?_, ?_, ?_, ?_, ?_, ?_⟩
  · intro a p ci tc fuel th tl inp h
    simp [runLoop, h]
  · intro a p ci tc fuel th ans h
    simp [runLoop, h]
  · decide
  · decide
  · decide
  · decide

/-! ### Helper lemmas for claim C8: `str.format` on the templates -/

theorem braceFree_bfL {s : String} (h : braceFree s = true) : bfL s.data := by
  unfold braceFree at h
  rw [List.all_eq_true] at h
  intro c hc
  have hcb := h c hc
  simp at hcb
  exact hcb

theorem bfL_append {a b : List Char} (ha : bfL a) (hb : bfL b) : bfL (a ++ b) := by
  intro c hc
  rcases List.mem_append.mp hc with h1 | h1
  · exact ha c h1
  · exact hb c h1

theorem bfL_str_append {a b : String} (ha : bfL a.data) (hb : bfL b.data) :
    bfL (a ++ b).data := by
  rw [String.data_append]
  exact bfL_append ha hb

theorem bfL_pyJoin (sep : String) (hsep : bfL sep.data) :
    ∀ (L : List String), (∀ x ∈ L, bfL x.data) → bfL (pyJoin sep L).data
  | [], _ => by intro c hc; simp [pyJoin] at hc
  | [x], h => by simpa [pyJoin] using h x (by simp)
  | x :: y :: L, h => by
    have hx := h x (by simp)
    have ih := bfL_pyJoin sep hsep (y :: L) (fun z hz => h z (by simp at hz ⊢; tauto))
    simpa [pyJoin] using bfL_str_append (bfL_str_append hx hsep) ih

theorem bfL_tool_descriptions (ts : List Tool)
    (h : ∀ t ∈ ts, braceFree t.name = true ∧ braceFree t.description = true) :
    bfL (tool_descriptions ts).data := by
  unfold tool_descriptions
  refine bfL_pyJoin "\n\n" (by decide) _ ?_
  intro x hx
  obtain ⟨t, ht, rfl⟩ := List.mem_map.mp hx
  obtain ⟨h1, h2⟩ := h t ht
  exact bfL_str_append (bfL_str_append (braceFree_bfL h1) (by decide)) (braceFree_bfL h2)

/-- Brace-free text passes through `str.format` unchanged. -/
theorem pyFmtAux_pass (m : String → Option String) :
    ∀ (cs rest : List Char) (n : Nat), bfL cs →
      pyFmtAux m (cs.length + n) none (cs ++ rest) =
        (fun t => cs ++ t) <$> pyFmtAux m n none rest
  | [], rest, n, _ => by
    simp only [List.length_nil, Nat.zero_add, List.nil_append]
    cases pyFmtAux m n none rest <;> simp
  | c :: cs, rest, n, h => by
    obtain ⟨h1, h2⟩ := h c (by simp)
    have ih := pyFmtAux_pass m cs rest n (fun x hx => h x (by simp [hx]))
    rw [show (c :: cs).length + n = (cs.length + n) + 1 by simp [List.length_cons]; omega]
    rw [List.cons_append]
    rw [show pyFmtAux m ((cs.length + n) + 1) none (c :: (cs ++ rest)) =
          (fun t => c :: t) <$> pyFmtAux m (cs.length + n) none (cs ++ rest) by
          simp [pyFmtAux, h1, h2]]
    rw [ih]
    cases pyFmtAux m n none rest <;> simp

/-- Scanning a well-formed field name inside a replacement field. -/
theorem pyFmtAux_field_aux (m : String → Option String) :
    ∀ (name acc rest : List Char) (n : Nat), cleanF name →
      pyFmtAux m (name.length + 1 + n) (some acc) (name ++ '\x7d' :: rest) =
        (match m (String.mk (acc.reverse ++ name)) with
         | some v => (fun t => v.data ++ t) <$> pyFmtAux m n none rest
         | none => none)
  | [], acc, rest, n, _ => by
    rw [show ([] : List Char).length + 1 + n = n + 1 by simp only [List.length_nil]; omega]
    simp [pyFmtAux]
  | a :: name, acc, rest, n, h => by
    obtain ⟨h1, h2, h3, h4⟩ := h a (by simp)
    have ih := pyFmtAux_field_aux m name (a :: acc) rest n (fun x hx => h x (by simp [hx]))
    rw [show (a :: name).length + 1 + n = (name.length + 1 + n) + 1 by
          simp [List.length_cons]; omega]
    rw [List.cons_append]
    rw [show pyFmtAux m ((name.length + 1 + n) + 1) (some acc) (a :: (name ++ '\x7d' :: rest)) =
          pyFmtAux m (name.length + 1 + n) (some (a :: acc)) (name ++ '\x7d' :: rest) by
          simp [pyFmtAux, h1, h2, h3, h4]]
    rw [ih]
    rw [show (a :: acc).reverse ++ name = acc.reverse ++ (a :: name) by simp]

/-- A whole replacement field whose name is bound by the mapping. -/
theorem pyFmtAux_field (m : String → Option String) (name rest : List Char) (n : Nat)
    (v : String) (hclean : cleanF name) (hne : name ≠ [])
    (hv : m (String.mk name) = some v) :
    pyFmtAux m (name.length + 2 + n) none ('\x7b' :: (name ++ '\x7d' :: rest)) =
      (fun t => v.data ++ t) <$> pyFmtAux m n none rest := by
  cases name with
  | nil => exact absurd rfl hne
  | cons a name =>
    obtain ⟨h1, h2, h3, h4⟩ := hclean a (by simp)
    rw [show (a :: name).length + 2 + n = ((a :: name).length + 1 + n) + 1 by omega]
    rw [show ((a :: name) ++ '\x7d' :: rest) = a :: (name ++ '\x7d' :: rest) by simp]
    rw [show pyFmtAux m (((a :: name).length + 1 + n) + 1) none
          ('\x7b' :: (a :: (name ++ '\x7d' :: rest))) =
          pyFmtAux m ((a :: name).length + 1 + n) (some []) (a :: (name ++ '\x7d' :: rest)) by
          simp [pyFmtAux, h1]]
    have haux := pyFmtAux_field_aux m (a :: name) [] rest n hclean
    rw [show ((a :: name) ++ '\x7d' :: rest) = a :: (name ++ '\x7d' :: rest) by simp] at haux
    simp only [List.reverse_nil, List.nil_append] at haux
    rw [haux]
    simp [hv]

/-- Brace-free terminal text. -/
theorem pyFmtAux_pass_end (m : String → Option String) (cs : List Char) (hcs : bfL cs) :
    pyFmtAux m cs.length none cs = some cs := by
  have hp := pyFmtAux_pass m cs [] 0 hcs
  simpa [pyFmtAux] using hp

/-- The initial prompt with the default sections, computed in closed
form for any question and any brace-free tool list. -/
theorem create_prompt_default (ts : List Tool) (q : String)
    (h : ∀ t ∈ ts, braceFree t.name = true ∧ braceFree t.description = true) :
    create_prompt ts q PREAMBLE SUFFIX INSTRUCTIONS =
      some (PREAMBLE ++ "\n\n" ++ tool_descriptions ts ++ "\n\n" ++ iHead ++
        pyReprList (tool_names ts) ++ iTail ++ "\n\n" ++ sHead ++ q ++ "\n") := by
  have hdescs : bfL (tool_descriptions ts).data := bfL_tool_descriptions ts h
  have hbfC1 : bfL (PREAMBLE.data ++ "\n\n".data ++ (tool_descriptions ts).data ++
      "\n\n".data ++ iHead.data) :=
    bfL_append (bfL_append (bfL_append (bfL_append (by decide) (by decide)) hdescs)
      (by decide)) (by decide)
  have hbfC2 : bfL (iTail.data ++ "\n\n".data ++ sHead.data) :=
    bfL_append (bfL_append (by decide) (by decide)) (by decide)
  have hbfC3 : bfL ("\n".data) := by decide
  have hI : INSTRUCTIONS.data =
      iHead.data ++ ('\x7b' :: ("tool_names".data ++ ('\x7d' :: iTail.data))) := by decide
  have hS : SUFFIX.data =
      sHead.data ++ ('\x7b' :: ("question".data ++ ('\x7d' :: "\n".data))) := by decide
  have hq : fmtMap q (pyReprList (tool_names ts)) (String.mk "question".data) = some q := rfl
  have htn : fmtMap q (pyReprList (tool_names ts)) (String.mk "tool_names".data) =
      some (pyReprList (tool_names ts)) := rfl
  unfold create_prompt pyFormat
  rw [show (PREAMBLE ++ "\n\n" ++ tool_descriptions ts ++ "\n\n" ++ INSTRUCTIONS ++
        "\n\n" ++ SUFFIX).data
      = (PREAMBLE.data ++ "\n\n".data ++ (tool_descriptions ts).data ++ "\n\n".data ++
          iHead.data) ++
        ('\x7b' :: ("tool_names".data ++ '\x7d' ::
          ((iTail.data ++ "\n\n".data ++ sHead.data) ++
            ('\x7b' :: ("question".data ++ '\x7d' :: "\n".data))))) by
      simp [String.data_append, hI, hS]]
  rw [show ((PREAMBLE.data ++ "\n\n".data ++ (tool_descriptions ts).data ++ "\n\n".data ++
          iHead.data) ++
        ('\x7b' :: ("tool_names".data ++ '\x7d' ::
          ((iTail.data ++ "\n\n".data ++ sHead.data) ++
            ('\x7b' :: ("question".data ++ '\x7d' :: "\n".data)))))).length
      = (PREAMBLE.data ++ "\n\n".data ++ (tool_descriptions ts).data ++ "\n\n".data ++
          iHead.data).length +
        ("tool_names".data.length + 2 +
          ((iTail.data ++ "\n\n".data ++ sHead.data).length +
            ("question".data.length + 2 + ("\n".data).length))) by
      simp [List.length_append, List.length_cons]; omega]
  rw [pyFmtAux_pass _ _ _ _ hbfC1]
  rw [pyFmtAux_field _ _ _ _ _ (by decide) (by decide) htn]
  rw [pyFmtAux_pass _ _ _ _ hbfC2]
  rw [pyFmtAux_field _ _ _ _ _ (by decide) (by decide) hq]
  rw [pyFmtAux_pass_end _ _ hbfC3]
  simp only [Option.map_map, Option.map_some]
  refine congrArg some (String.ext ?_)
  simp [String.data_append]

/-- Each member string of a join appears inside it. -/
theorem pyJoin_mem_decomp (sep : String) :
    ∀ (L : List String) (x : String), x ∈ L → ∃ u v, pyJoin sep L = u ++ x ++ v
  | [], x, hx => absurd hx (by simp)
  | [y], x, hx => by
    have hxy : x = y := by simpa using hx
    subst hxy
    refine ⟨"", "", ?_⟩
    rw [strAppendEmpty, strEmptyAppend]
    simp [pyJoin]
  | y :: z :: L, x, hx => by
    rcases List.mem_cons.mp hx with h1 | h1
    · subst h1
      refine ⟨"", sep ++ pyJoin sep (z :: L), ?_⟩
      rw [strEmptyAppend]
      rw [show pyJoin sep (x :: z :: L) = x ++ sep ++ pyJoin sep (z :: L) by simp [pyJoin]]
      rw [String.append_assoc]
    · obtain ⟨u, v, huv⟩ := pyJoin_mem_decomp sep (z :: L) x h1
      refine ⟨y ++ sep ++ u, v, ?_⟩
      rw [show pyJoin sep (y :: z :: L) = y ++ sep ++ pyJoin sep (z :: L) by simp [pyJoin]]
      rw [huv]
      simp [String.append_assoc]

/-! ### Claim C8 -/

/-- C8, counterexample: with a suffix argument lacking the question
placeholder, the resulting prompt does not contain the question text,
refuting the claim for every suffix. -/
theorem c8_suffix_counterexample :
    Option.map (fun r => containsStr r "zq")
      (create_prompt [cTool] "zq" PREAMBLE "" INSTRUCTIONS) = some false := by decide

/-- C8 (amended): `create_prompt` is pure and deterministic; with the
default prefix, suffix and instructions, and tools whose names and
descriptions contain no format braces, it succeeds and its result
contains the literal question text, the whole registration-ordered
tool-description block, and each registered tool's name and
description. -/
theorem c8_create_prompt (ts : List Tool) (q : String)
    (h : ∀ t ∈ ts, braceFree t.name = true ∧ braceFree t.description = true) :
    create_prompt ts q PREAMBLE SUFFIX INSTRUCTIONS =
      create_prompt ts q PREAMBLE SUFFIX INSTRUCTIONS ∧
    ∃ r, create_prompt ts q PREAMBLE SUFFIX INSTRUCTIONS = some r ∧
      (∃ x y, r = x ++ q ++ y) ∧
      (∃ x y, r = x ++ tool_descriptions ts ++ y) ∧
      (∀ t ∈ ts, ∃ x y, r = x ++ (t.name ++ ": " ++ t.description) ++ y) := by
  refine ⟨rfl, _, create_prompt_default ts q h, ?_, ?_, ?_⟩
  · exact ⟨PREAMBLE ++ "\n\n" ++ tool_descriptions ts ++ "\n\n" ++ iHead ++
      pyReprList (tool_names ts) ++ iTail ++ "\n\n" ++ sHead, "\n", rfl⟩
  · refine ⟨PREAMBLE ++ "\n\n", "\n\n" ++ iHead ++ pyReprList (tool_names ts) ++ iTail ++
      "\n\n" ++ sHead ++ q ++ "\n", ?_⟩
    simp [String.append_assoc]
  · intro t ht
    obtain ⟨u, v, huv⟩ := pyJoin_mem_decomp "\n\n"
      (ts.map (fun t => t.name ++ ": " ++ t.description)) (t.name ++ ": " ++ t.description)
      (List.mem_map_of_mem _ ht)
    refine ⟨PREAMBLE ++ "\n\n" ++ u,
      v ++ "\n\n" ++ iHead ++ pyReprList (tool_names ts) ++ iTail ++ "\n\n" ++ sHead ++
        q ++ "\n", ?_⟩
    rw [show tool_descriptions ts = u ++ (t.name ++ ": " ++ t.description) ++ v by
          unfold tool_descriptions; exact huv]
    simp [String.append_assoc]

/-- C8 witness: the amended claim instantiated on a one-tool agent. -/
theorem c8_create_prompt_witness :
    ∃ r, create_prompt [cTool] "zq" PREAMBLE SUFFIX INSTRUCTIONS = some r ∧
      (∃ x y, r = x ++ "zq" ++ y) ∧
      (∃ x y, r = x ++ tool_descriptions [cTool] ++ y) ∧
      (∀ t ∈ [cTool], ∃ x y, r = x ++ (t.name ++ ": " ++ t.description) ++ y) :=
  (c8_create_prompt [cTool] "zq" (by decide)).2

/-- C3 witness: the two loop-step equations instantiated on the stub
scenario. -/
theorem c3_run_loop_behaviour_witness :
    runLoop stubAgent "P" 0 0 2 =
      runLoop stubAgent
        ("P" ++ "Thought: I should search" ++ "\nAction: " ++ "Search" ++ "\nAction Input: " ++
          "capital of France" ++ "\nObservation: " ++
          (if run_tool stubAgent.tools "Search" "capital of France" = ""
           then "Tool returned no results"
           else run_tool stubAgent.tools "Search" "capital of France") ++ "\n")
        1 (0 + if (tool_dict stubAgent.tools "Search").isSome then 1 else 0) 1 ∧
    runLoop stubAgent "Q" 1 0 1 =
      ⟨.ok "Paris" ("Q" ++ "Thought: I now know the final answer" ++ "\nFinal Answer: " ++
        "Paris"), 2, 0, stubAgent⟩ :=
  ⟨c3_run_loop_behaviour.1 stubAgent "P" 0 0 1 "Thought: I should search" "Search"
      "capital of France" (by decide),
   c3_run_loop_behaviour.2.1 stubAgent "Q" 1 0 0 "Thought: I now know the final answer" "Paris"
      (by decide)⟩

end ChainLink
